import Mathlib

/-!
Verification of the real-time chat backend (socket event handlers, group and
message routes, call handlers) against its natural-language specification.

The definitions below are a shallow embedding of the JavaScript source:

* `Presence` models the in-memory `activeUsers` map of the socket server
  (`initializeSocket`): the connection handler that supersedes an existing
  connection for the same user, and the `disconnect` handler that runs
  `activeUsers.delete(socket.userId)`.  Socket ids are generated from a
  counter (fresh per connection, as the transport guarantees), and each
  socket fires its disconnect handler exactly once — either synchronously
  when the connection handler force-closes it via `oldSocket.disconnect(true)`,
  or later when its own transport closes, mirroring socket.io semantics.
* `ChatApp` models the persistent data (users with `blockedUsers`/`friends`,
  groups, messages with reactions and tombstone fields, calls, chat rooms)
  and the event handlers `send-message`, `delete-message`, `add-reaction`,
  `remove-reaction`, `call-initiate`, `call-answer`, plus the HTTP routes
  `POST /send`, group member routes and `POST /:groupId/leave`.

Timestamps (`Date` values) are irrelevant to every property proved here and
are omitted from the records.  Mongoose persistence is modelled as pure state
update; a failing schema validation surfaces as the handler's catch-branch
error event, exactly as the code reports it.
-/

namespace Presence

/-- An association list lookup returning the first binding of the key, the
way a JS `Map` behaves once we maintain at most one binding per key. -/
def getU : List (Nat × Nat) → Nat → Option Nat
  | [], _ => none
  | (v, c) :: t, u => if v = u then some c else getU t u

/-- Remove every binding of a key: `activeUsers.delete(u)`. -/
def delU (m : List (Nat × Nat)) (u : Nat) : List (Nat × Nat) :=
  m.filter (fun p => p.1 ≠ u)

/-- State of the presence registry: the `activeUsers` map (user id to socket
id), the set of sockets whose disconnect handler has run (socket.io closes a
socket and fires its `disconnect` event exactly once, together), the owner of
every socket ever connected, and the fresh socket-id counter. -/
structure St where
  active : List (Nat × Nat)
  closed : List Nat
  owners : List (Nat × Nat)
  next : Nat

def init : St := ⟨[], [], [], 0⟩

/-- The body of the `socket.on("disconnect")` handler of the socket server:
`activeUsers.delete(socket.userId)`, performed for socket `c` owned by `u`,
which is thereby closed. -/
def runDisc (s : St) (u c : Nat) : St :=
  { s with active := delU s.active u, closed := c :: s.closed }

/-- The `io.on("connection")` handler: if `activeUsers` already holds an
entry for the user, the old socket — when still open — is force-closed with
`oldSocket.disconnect(true)`, which synchronously runs its disconnect
handler; then the new socket is stored with `activeUsers.set`. -/
def connectStep (s : St) (u : Nat) : St :=
  let s1 :=
    match getU s.active u with
    | some cOld => if cOld ∈ s.closed then s else runDisc s u cOld
    | none => s
  { s1 with
      active := (u, s.next) :: delU s1.active u,
      owners := (s.next, u) :: s1.owners,
      next := s1.next + 1 }

/-- Transport-level close of socket `c`: fires the disconnect handler unless
it already ran (a socket disconnects only once). A socket that never
connected has no handler. -/
def discStep (s : St) (c : Nat) : St :=
  match getU s.owners c with
  | none => s
  | some u => if c ∈ s.closed then s else runDisc s u c

inductive Ev where
  | conn (u : Nat)
  | disc (c : Nat)
deriving DecidableEq, Repr

def step (s : St) : Ev → St
  | .conn u => connectStep s u
  | .disc c => discStep s c

def run (t : List Ev) : St := t.foldl step init

theorem getU_mem {m : List (Nat × Nat)} {u c : Nat} (h : getU m u = some c) :
    (u, c) ∈ m := by
  induction m with
  | nil => simp [getU] at h
  | cons p t ih =>
    obtain ⟨v, c'⟩ := p
    by_cases hv : v = u
    · subst hv
      simp [getU] at h
      simp [h]
    · simp [getU, hv] at h
      exact List.mem_cons_of_mem _ (ih h)

theorem mem_delU {m : List (Nat × Nat)} {u : Nat} {p : Nat × Nat} :
    p ∈ delU m u ↔ p ∈ m ∧ p.1 ≠ u := by
  simp [delU]

theorem getU_delU_self (m : List (Nat × Nat)) (u : Nat) :
    getU (delU m u) u = none := by
  induction m with
  | nil => simp [delU, getU]
  | cons p t ih =>
    obtain ⟨v, c'⟩ := p
    by_cases hv : v = u
    · simpa [delU, hv] using ih
    · simpa [delU, hv, getU] using ih

theorem getU_delU_ne (m : List (Nat × Nat)) {u v : Nat} (h : v ≠ u) :
    getU (delU m u) v = getU m v := by
  induction m with
  | nil => rfl
  | cons p t ih =>
    obtain ⟨w, c'⟩ := p
    by_cases hw : w = u
    · subst hw
      have hne : w ≠ v := fun hh => h hh.symm
      simpa [delU, getU, hne] using ih
    · by_cases hwv : w = v
      · subst hwv
        simp [delU, hw, getU]
      · simpa [delU, hw, getU, hwv] using ih

/-- Invariants of the presence registry maintained by every event. -/
structure Inv (s : St) : Prop where
  act_fun : ∀ u c, (u, c) ∈ s.active → getU s.active u = some c
  act_open : ∀ u c, (u, c) ∈ s.active → c ∉ s.closed
  act_bound : ∀ u c, (u, c) ∈ s.active → c < s.next
  closed_bound : ∀ c, c ∈ s.closed → c < s.next
  own_of_act : ∀ u c, (u, c) ∈ s.active → getU s.owners c = some u
  act_of_own : ∀ c u, getU s.owners c = some u → c ∈ s.closed ∨ (u, c) ∈ s.active

theorem inv_init : Inv init := by
  constructor <;> intro <;> simp [init, getU] at *

theorem inv_runDisc {s : St} (hs : Inv s) {u c : Nat}
    (hmem : (u, c) ∈ s.active) : Inv (runDisc s u c) := by
  refine ⟨?_, ?_, ?_, ?_, ?_, ?_⟩
  · intro v c' hv
    have hm : (v, c') ∈ delU s.active u := hv
    rw [mem_delU] at hm
    have hvu : v ≠ u := hm.2
    show getU (delU s.active u) v = some c'
    rw [getU_delU_ne _ hvu]
    exact hs.act_fun v c' hm.1
  · intro v c' hv
    have hm : (v, c') ∈ delU s.active u := hv
    rw [mem_delU] at hm
    have h1 : c' ∉ s.closed := hs.act_open v c' hm.1
    have h2 : c' ≠ c := by
      intro hcc
      subst hcc
      have ha := hs.own_of_act v c' hm.1
      have hb := hs.own_of_act u c' hmem
      rw [ha] at hb
      exact hm.2 (Option.some_inj.mp hb)
    show c' ∉ c :: s.closed
    simp [h1, h2]
  · intro v c' hv
    have hm : (v, c') ∈ delU s.active u := hv
    rw [mem_delU] at hm
    exact hs.act_bound v c' hm.1
  · intro c' hc'
    have hm : c' ∈ c :: s.closed := hc'
    rcases List.mem_cons.mp hm with h | h
    · subst h; exact hs.act_bound u c' hmem
    · exact hs.closed_bound c' h
  · intro v c' hv
    have hm : (v, c') ∈ delU s.active u := hv
    rw [mem_delU] at hm
    exact hs.own_of_act v c' hm.1
  · intro c' v hv
    rcases hs.act_of_own c' v hv with h | h
    · exact Or.inl (List.mem_cons_of_mem _ h)
    · by_cases hvu : v = u
      · subst hvu
        have h1 := hs.act_fun v c' h
        have h2 := hs.act_fun v c hmem
        rw [h1] at h2
        left
        show c' ∈ c :: s.closed
        rw [Option.some_inj.mp h2]
        exact List.mem_cons_self _ _
      · right
        show (v, c') ∈ delU s.active u
        rw [mem_delU]
        exact ⟨h, hvu⟩

theorem inv_connectStep {s : St} (hs : Inv s) (u : Nat) :
    Inv (connectStep s u) := by
  have hcore : ∀ s1 : St, Inv s1 → getU s1.active u = none →
      s1.next = s.next → s1.owners = s.owners →
      Inv { s1 with
              active := (u, s1.next) :: delU s1.active u,
              owners := (s1.next, u) :: s1.owners,
              next := s1.next + 1 } := by
    intro s1 hs1 hnone hnext howners
    refine ⟨?_, ?_, ?_, ?_, ?_, ?_⟩
    · intro v c' hv
      rcases List.mem_cons.mp hv with h | h
      · rw [Prod.mk.injEq] at h
        simp [getU, h.1, h.2]
      · rw [mem_delU] at h
        have hvu : v ≠ u := h.2
        simp only [getU, if_neg (fun hh : u = v => hvu hh.symm)]
        rw [getU_delU_ne _ hvu]
        exact hs1.act_fun v c' h.1
    · intro v c' hv
      rcases List.mem_cons.mp hv with h | h
      · rw [Prod.mk.injEq] at h
        intro hcl
        exact absurd (hs1.closed_bound _ (h.2 ▸ hcl)) (lt_irrefl _)
      · rw [mem_delU] at h
        exact hs1.act_open v c' h.1
    · intro v c' hv
      rcases List.mem_cons.mp hv with h | h
      · rw [Prod.mk.injEq] at h
        simp [h.2]
      · rw [mem_delU] at h
        exact Nat.lt_succ_of_lt (hs1.act_bound v c' h.1)
    · intro c' hc'
      exact Nat.lt_succ_of_lt (hs1.closed_bound c' hc')
    · intro v c' hv
      rcases List.mem_cons.mp hv with h | h
      · rw [Prod.mk.injEq] at h
        simp [getU, h.1, h.2]
      · rw [mem_delU] at h
        have hb := hs1.act_bound v c' h.1
        simp only [getU, if_neg (fun hh : s1.next = c' => absurd (hh ▸ hb) (lt_irrefl _))]
        exact hs1.own_of_act v c' h.1
    · intro c' v hv
      by_cases hc : s1.next = c'
      · subst hc
        simp only [getU, if_pos rfl] at hv
        right
        rw [Option.some_inj.mp hv]
        exact List.mem_cons_self _ _
      · simp only [getU, if_neg hc] at hv
        rcases hs1.act_of_own c' v hv with h | h
        · exact Or.inl h
        · right
          have hvu : v ≠ u := by
            intro hvu
            subst hvu
            rw [hs1.act_fun v c' h] at hnone
            exact Option.noConfusion hnone
          exact List.mem_cons_of_mem _ (mem_delU.mpr ⟨h, hvu⟩)
  unfold connectStep
  cases hget : getU s.active u with
  | none =>
    exact hcore s hs hget rfl rfl
  | some cOld =>
    have hmem := getU_mem hget
    have hopen : cOld ∉ s.closed := hs.act_open u cOld hmem
    simp only [if_neg hopen]
    refine hcore (runDisc s u cOld) (inv_runDisc hs hmem) ?_ rfl rfl
    exact getU_delU_self s.active u

theorem inv_discStep {s : St} (hs : Inv s) (c : Nat) :
    Inv (discStep s c) := by
  unfold discStep
  cases hget : getU s.owners c with
  | none => exact hs
  | some u =>
    by_cases hc : c ∈ s.closed
    · simpa [hc] using hs
    · simp only [if_neg hc]
      rcases hs.act_of_own c u hget with h | h
      · exact absurd h hc
      · exact inv_runDisc hs h

theorem inv_step {s : St} (hs : Inv s) (e : Ev) : Inv (step s e) := by
  cases e with
  | conn u => exact inv_connectStep hs u
  | disc c => exact inv_discStep hs c

theorem inv_foldl {s : St} (hs : Inv s) (t : List Ev) :
    Inv (t.foldl step s) := by
  induction t generalizing s with
  | nil => exact hs
  | cons e t ih => exact ih (inv_step hs e)

theorem inv_run (t : List Ev) : Inv (run t) :=
  inv_foldl inv_init t

theorem run_append_one (t : List Ev) (e : Ev) :
    run (t ++ [e]) = step (run t) e := by
  simp [run, List.foldl_append]

theorem run_append_two (t : List Ev) (e1 e2 : Ev) :
    run (t ++ [e1, e2]) = step (step (run t) e1) e2 := by
  simp [run, List.foldl_append]

end Presence

/-- C1: for every user `u`, after `register(u, c1)` is superseded by
`register(u, c2)` (the connection handler evicting/replacing the `activeUsers`
entry), `lookup(u)` returns the new socket `c2 = next`, the old socket `c1`
has been closed, and a disconnect event of the superseded socket `c1` leaves
the new entry in place; moreover, at no reachable state does `lookup` return
a closed connection. -/
theorem presence_single_connection
    (t : List Presence.Ev) (u c1 : Nat)
    (h : Presence.getU (Presence.run t).active u = some c1) :
    (Presence.getU (Presence.run (t ++ [Presence.Ev.conn u])).active u
        = some (Presence.run t).next ∧
      c1 ∈ (Presence.run (t ++ [Presence.Ev.conn u])).closed ∧
      c1 ≠ (Presence.run t).next ∧
      Presence.getU
        (Presence.run (t ++ [Presence.Ev.conn u, Presence.Ev.disc c1])).active u
        = some (Presence.run t).next) ∧
    ∀ (t' : List Presence.Ev) (v c : Nat),
      Presence.getU (Presence.run t').active v = some c →
      c ∉ (Presence.run t').closed := by
  have hinv := Presence.inv_run t
  have hmem := Presence.getU_mem h
  have hopen : c1 ∉ (Presence.run t).closed := hinv.act_open u c1 hmem
  have hbound : c1 < (Presence.run t).next := hinv.act_bound u c1 hmem
  have hne : c1 ≠ (Presence.run t).next := Nat.ne_of_lt hbound
  have hstep : Presence.run (t ++ [Presence.Ev.conn u])
      = Presence.connectStep (Presence.run t) u :=
    Presence.run_append_one t _
  have hconn : Presence.connectStep (Presence.run t) u
      = { Presence.runDisc (Presence.run t) u c1 with
            active := (u, (Presence.run t).next) ::
              Presence.delU (Presence.runDisc (Presence.run t) u c1).active u,
            owners := ((Presence.run t).next, u) :: (Presence.run t).owners,
            next := (Presence.run t).next + 1 } := by
    unfold Presence.connectStep
    rw [h]
    simp [hopen, Presence.runDisc]
  have hlook : Presence.getU (Presence.run (t ++ [Presence.Ev.conn u])).active u
      = some (Presence.run t).next := by
    rw [hstep, hconn]
    simp [Presence.getU]
  have hclosed : c1 ∈ (Presence.run (t ++ [Presence.Ev.conn u])).closed := by
    rw [hstep, hconn]
    exact List.mem_cons_self _ _
  refine ⟨⟨hlook, hclosed, hne, ?_⟩, ?_⟩
  · have howner : Presence.getU (Presence.run (t ++ [Presence.Ev.conn u])).owners c1
        = some u := by
      rw [hstep, hconn]
      have hown := hinv.own_of_act u c1 hmem
      simp only [Presence.getU, if_neg (fun hh : (Presence.run t).next = c1 => hne hh.symm)]
      exact hown
    rw [Presence.run_append_two, ← Presence.run_append_one]
    show Presence.getU
        (Presence.discStep (Presence.run (t ++ [Presence.Ev.conn u])) c1).active u
        = some (Presence.run t).next
    unfold Presence.discStep
    rw [howner]
    simp only [if_pos hclosed]
    exact hlook
  · intro t' v c hvc
    exact (Presence.inv_run t').act_open v c (Presence.getU_mem hvc)

/-- Witness for C1: user 0 registers socket 0, then reconnects; the second
registration supersedes the first. -/
theorem presence_single_connection_witness :
    Presence.getU (Presence.run [Presence.Ev.conn 0]).active 0 = some 0 ∧
    ((Presence.getU
          (Presence.run ([Presence.Ev.conn 0] ++ [Presence.Ev.conn 0])).active 0
        = some (Presence.run [Presence.Ev.conn 0]).next ∧
      0 ∈ (Presence.run ([Presence.Ev.conn 0] ++ [Presence.Ev.conn 0])).closed ∧
      0 ≠ (Presence.run [Presence.Ev.conn 0]).next ∧
      Presence.getU
          (Presence.run
            ([Presence.Ev.conn 0] ++ [Presence.Ev.conn 0, Presence.Ev.disc 0])).active 0
        = some (Presence.run [Presence.Ev.conn 0]).next) ∧
    ∀ (t' : List Presence.Ev) (v c : Nat),
      Presence.getU (Presence.run t').active v = some c →
      c ∉ (Presence.run t').closed) :=
  ⟨by decide, presence_single_connection [Presence.Ev.conn 0] 0 0 (by decide)⟩


namespace ChatApp

abbrev UserId := Nat
abbrev GroupId := Nat
abbrev MsgId := Nat
abbrev CallId := Nat
abbrev RoomId := Nat

/-- JS truthiness of an optional string field (absent and `""` are falsy). -/
def strTruthy : Option String → Bool
  | none => false
  | some s => s ≠ ""

/-- A user document (`userSchema`): fields used by the session core. -/
structure UserRec where
  id : UserId
  name : String
  blockedUsers : List UserId
  friends : List UserId
deriving Repr, DecidableEq

/-- An entry of the `activeUsers` map as seen by the event handlers: the user
is online, possibly viewing one chat (`viewingChat`). -/
structure PresEntry where
  userId : UserId
  viewingChat : Option UserId
deriving Repr, DecidableEq

/-- One entry of `messageSchema.reactions` (timestamp omitted). -/
structure ReactionRec where
  user : UserId
  reaction : String
deriving Repr, DecidableEq

/-- A message document (`messageSchema`, the revision with reactions and
tombstone fields that every handler requires): attachment abbreviated to a
presence flag, timestamps omitted. -/
structure Msg where
  id : MsgId
  sender : UserId
  receiver : Option UserId
  group : Option GroupId
  content : String
  messageType : String
  hasAttachment : Bool
  isRead : Bool
  reactions : List ReactionRec
  isDeleted : Bool
  deletedBy : Option UserId
deriving Repr, DecidableEq

/-- A group document (`groupSchema`); `onlyAdminsCanSendMessages` is the
`settings.onlyAdminsCanSendMessages` flag. -/
structure Group where
  id : GroupId
  name : String
  createdBy : UserId
  admins : List UserId
  members : List UserId
  isActive : Bool
  onlyAdminsCanSendMessages : Bool
  lastMessage : Option MsgId
deriving Repr, DecidableEq

/-- A private chat room (`chatRoomSchema`): participants, per-user soft-delete
markers, last message. -/
structure ChatRoom where
  id : RoomId
  participants : List UserId
  deletedFor : List UserId
  lastMessage : Option MsgId
deriving Repr, DecidableEq

/-- A call record; `status` is the status string stored on the document. -/
structure Call where
  id : CallId
  caller : UserId
  receiver : UserId
  callType : String
  status : String
deriving Repr, DecidableEq

/-- The whole observable state: persisted collections plus the in-memory
presence map, with fresh-id counters for documents created by handlers. -/
structure World where
  users : List UserRec
  presence : List PresEntry
  groups : List Group
  messages : List Msg
  chatRooms : List ChatRoom
  calls : List Call
  nextMsgId : MsgId
  nextRoomId : RoomId
  nextCallId : CallId
  nextGroupId : GroupId
deriving Repr, DecidableEq

def findUser (w : World) (uid : UserId) : Option UserRec :=
  w.users.find? (fun u => u.id == uid)

def findPres (w : World) (uid : UserId) : Option PresEntry :=
  w.presence.find? (fun p => p.userId == uid)

def isOnline (w : World) (uid : UserId) : Bool :=
  (findPres w uid).isSome

def userName (w : World) (uid : UserId) : String :=
  match findUser w uid with
  | some u => u.name
  | none => ""

def findMsg (w : World) (mid : MsgId) : Option Msg :=
  w.messages.find? (fun m => m.id == mid)

/-- `Message.findOne({_id: mid, isDeleted: false})`. -/
def findMsgLive (w : World) (mid : MsgId) : Option Msg :=
  w.messages.find? (fun m => m.id == mid && !m.isDeleted)

def updateMsg (w : World) (m' : Msg) : World :=
  { w with messages := w.messages.map (fun m => if m.id == m'.id then m' else m) }

def findGroupById (w : World) (gid : GroupId) : Option Group :=
  w.groups.find? (fun g => g.id == gid)

/-- `Group.findOne({_id: gid, members: uid, isActive: true})`. -/
def findGroupMemberQ (w : World) (gid : GroupId) (uid : UserId) : Option Group :=
  w.groups.find? (fun g => g.id == gid && g.members.contains uid && g.isActive)

/-- `Group.findOne({_id: gid, $or: [{createdBy: uid}, {admins: uid}], isActive: true})`. -/
def findGroupAdminQ (w : World) (gid : GroupId) (uid : UserId) : Option Group :=
  w.groups.find? (fun g =>
    g.id == gid && (g.createdBy == uid || g.admins.contains uid) && g.isActive)

def updateGroup (w : World) (g' : Group) : World :=
  { w with groups := w.groups.map (fun g => if g.id == g'.id then g' else g) }

/-- `ChatRoom.findOne({participants: {$all: [a, b]}, roomType: "private"})`. -/
def findRoom (w : World) (a b : UserId) : Option ChatRoom :=
  w.chatRooms.find? (fun r => r.participants.contains a && r.participants.contains b)

def updateRoom (w : World) (r' : ChatRoom) : World :=
  { w with chatRooms := w.chatRooms.map (fun r => if r.id == r'.id then r' else r) }

def findCall (w : World) (cid : CallId) : Option Call :=
  w.calls.find? (fun c => c.id == cid)

def updateCall (w : World) (c' : Call) : World :=
  { w with calls := w.calls.map (fun c => if c.id == c'.id then c' else c) }

/-- `countDocuments({receiver: uid, isRead: false})` — the unread count. -/
def unreadCount (w : World) (uid : UserId) : Nat :=
  (w.messages.filter (fun m => m.receiver == some uid && !m.isRead)).length

/-- Events emitted by the handlers, each with its target connection (or push
registration). -/
inductive Ev where
  | messageError (dest : UserId) (err : String)
  | messageSent (dest : UserId) (msgId : MsgId)
  | newMessage (dest : UserId) (msgId : MsgId)
  | pushNotif (dest : UserId) (title body : String)
  | messageDeleted (dest : UserId) (msgId : MsgId)
  | reactionAdded (dest : UserId) (msgId : MsgId)
  | reactionRemoved (dest : UserId) (msgId : MsgId)
  | callError (dest : UserId) (err : String)
  | callInitiated (dest : UserId) (callId : CallId)
  | incomingCall (dest : UserId) (callId : CallId)
  | callMissed (dest : UserId) (callId : CallId)
  | callAnswered (dest : UserId) (callId : CallId)
deriving Repr, DecidableEq

def Ev.target : Ev → UserId
  | .messageError d _ => d
  | .messageSent d _ => d
  | .newMessage d _ => d
  | .pushNotif d _ _ => d
  | .messageDeleted d _ => d
  | .reactionAdded d _ => d
  | .reactionRemoved d _ => d
  | .callError d _ => d
  | .callInitiated d _ => d
  | .incomingCall d _ => d
  | .callMissed d _ => d
  | .callAnswered d _ => d


/-- Whitespace as JS `trim` sees it (the cases that occur here). -/
def isWs (c : Char) : Bool :=
  c = ' ' || c = '\t' || c = '\n' || c = '\r'

/-- JS `String.prototype.trim`, written over the character list so that it
evaluates by kernel reduction. -/
def jsTrim (s : String) : String :=
  String.mk (((s.data.dropWhile isWs).reverse.dropWhile isWs).reverse)

/-- The `messageType` enum of the message schema. -/
def msgTypeEnum : List String := ["text", "image", "video", "file", "system", "deleted"]

/-- Mongoose validation run by `message.save()`: content required unless an
attachment is present, `messageType` in the enum, and one of receiver/group
present (each is required when the other is absent). -/
def msgValid (m : Msg) : Bool :=
  (m.content != "" || m.hasAttachment) &&
  msgTypeEnum.contains m.messageType &&
  (m.receiver.isSome || m.group.isSome)

/-- `content ? content.trim() : ""`. -/
def trimOpt : Option String → String
  | some c => jsTrim c
  | none => ""

/-- `NotificationService.sendMessageNotification` body truncation:
`content.length > 100 ? content.substring(0, 100) + "..." : content`. -/
def truncate100 (s : String) : String :=
  if s.data.length > 100 then String.mk (s.data.take 100) ++ "..." else s

/-- The push body for a direct message: the handler passes
`message.content || 'New message'` and the service truncates it. -/
def notifBody (content : String) : String :=
  truncate100 (if content = "" then "New message" else content)

def errFields : String := "Receiver ID and content or attachment are required"
def errBlocked : String := "Cannot send message. User is blocked."
def errReceiverNotFound : String := "Receiver not found"
def errNotFriends : String :=
  "You can only send messages to friends. Send a friend request first."
def errGroupNotFound : String := "Group not found or you are not a member"
def errSendFailed : String := "Failed to send message"

/-- Payload of the `send-message` socket event. -/
structure SendData where
  receiverId : Option Nat
  content : Option String
  messageType : String
  hasAttachment : Bool
  isGroupChat : Bool
deriving Repr, DecidableEq

/-- The group part of the `send-message` handler (`isGroupChat` true): find
the group by id/membership/active, persist the message, update the group,
ack the sender, emit `new-message` to every online member, and push-notify
every offline member other than the sender. -/
def sendMessageGroup (w : World) (senderId : UserId) (gid : GroupId) (d : SendData) :
    World × List Ev :=
  match findGroupMemberQ w gid senderId with
  | none => (w, [.messageError senderId errGroupNotFound])
  | some g =>
    let m : Msg :=
      { id := w.nextMsgId, sender := senderId, receiver := none, group := some gid,
        content := trimOpt d.content, messageType := d.messageType,
        hasAttachment := d.hasAttachment, isRead := false, reactions := [],
        isDeleted := false, deletedBy := none }
    if msgValid m then
      let g2 := { g with lastMessage := some m.id }
      let w2 := updateGroup
        { w with messages := w.messages ++ [m], nextMsgId := w.nextMsgId + 1 } g2
      let onlineEvs := g.members.filterMap fun mid =>
        if isOnline w mid then some (Ev.newMessage mid m.id) else none
      let offline := g.members.filter fun mid => !isOnline w mid && mid != senderId
      let pushEvs := offline.map fun mid =>
        Ev.pushNotif mid g.name
          (userName w senderId ++ ": " ++ (if m.content = "" then "New message" else m.content))
      (w2, Ev.messageSent senderId m.id :: (onlineEvs ++ pushEvs))
    else (w, [.messageError senderId errSendFailed])

/-- The direct (private) part of the `send-message` handler after the
blocking check: the friends check, message persistence with the
receiver-is-viewing read flag, chat-room find-or-create with `deletedFor`
restore, the ack and self-echo, and delivery to the receiver — `new-message`
when online, otherwise one push notification. -/
def sendMessageDirect (w : World) (senderId : UserId) (sender : UserRec) (rid : UserId)
    (d : SendData) : World × List Ev :=
  if sender.friends.contains rid then
    let receiverViewing :=
      match findPres w rid with
      | some p => p.viewingChat == some senderId
      | none => false
    let m : Msg :=
      { id := w.nextMsgId, sender := senderId, receiver := some rid, group := none,
        content := trimOpt d.content, messageType := d.messageType,
        hasAttachment := d.hasAttachment, isRead := receiverViewing, reactions := [],
        isDeleted := false, deletedBy := none }
    if msgValid m then
      let w2 :=
        match findRoom w senderId rid with
        | none =>
          let room : ChatRoom :=
            { id := w.nextRoomId, participants := [senderId, rid], deletedFor := [],
              lastMessage := some m.id }
          { w with messages := w.messages ++ [m], nextMsgId := w.nextMsgId + 1,
                   chatRooms := w.chatRooms ++ [room], nextRoomId := w.nextRoomId + 1 }
        | some room =>
          let room2 :=
            { room with
                deletedFor := room.deletedFor.filter fun x => x != senderId && x != rid,
                lastMessage := some m.id }
          updateRoom
            { w with messages := w.messages ++ [m], nextMsgId := w.nextMsgId + 1 } room2
      let deliver :=
        if isOnline w rid then [Ev.newMessage rid m.id]
        else [Ev.pushNotif rid sender.name (notifBody m.content)]
      (w2, [Ev.messageSent senderId m.id, Ev.newMessage senderId m.id] ++ deliver)
    else (w, [.messageError senderId errSendFailed])
  else (w, [.messageError senderId errNotFriends])

/-- The `socket.on("send-message")` handler: field validation, then for
private messages the symmetric blocking check, then the group or direct
branch. -/
def sendMessageSock (w : World) (senderId : UserId) (d : SendData) : World × List Ev :=
  match d.receiverId with
  | none => (w, [.messageError senderId errFields])
  | some rid =>
    if strTruthy d.content || d.hasAttachment then
      if d.isGroupChat then sendMessageGroup w senderId rid d
      else
        match findUser w rid with
        | none => (w, [.messageError senderId errReceiverNotFound])
        | some receiver =>
          match findUser w senderId with
          | none => (w, [.messageError senderId errSendFailed])
          | some sender =>
            if sender.blockedUsers.contains rid ||
                receiver.blockedUsers.contains senderId then
              (w, [.messageError senderId errBlocked])
            else sendMessageDirect w senderId sender rid d
    else (w, [.messageError senderId errFields])

/-- Payload of `POST /send` (`routes/messages.js`). -/
structure HttpSendData where
  receiverId : Option UserId
  groupId : Option GroupId
  content : Option String
  messageType : String
  hasAttachment : Bool
deriving Repr, DecidableEq

/-- `POST /send`: validation of target/content/type, then the message is
stored with `receiver := receiverId` when present, else `group := groupId`.
Returns the resulting world and the HTTP status. -/
def httpSendMessage (w : World) (uid : UserId) (d : HttpSendData) : World × Nat :=
  if !(d.receiverId.isSome || d.groupId.isSome) then (w, 400)
  else if !(strTruthy d.content || d.hasAttachment) then (w, 400)
  else if !(msgTypeEnum.contains d.messageType) then (w, 400)
  else
    let m : Msg :=
      { id := w.nextMsgId, sender := uid,
        receiver := if d.receiverId.isSome then d.receiverId else none,
        group := if d.receiverId.isSome then none else d.groupId,
        content := trimOpt d.content, messageType := d.messageType,
        hasAttachment := d.hasAttachment, isRead := false, reactions := [],
        isDeleted := false, deletedBy := none }
    if msgValid m then
      ({ w with messages := w.messages ++ [m], nextMsgId := w.nextMsgId + 1 }, 200)
    else (w, 500)


/-- The `groupSchema.pre("save")` hook on a new document: push the creator
into `admins` and `members` when absent. -/
def preSaveGroup (g : Group) : Group :=
  let g1 :=
    if g.admins.contains g.createdBy then g
    else { g with admins := g.admins ++ [g.createdBy] }
  if g1.members.contains g1.createdBy then g1
  else { g1 with members := g1.members ++ [g1.createdBy] }

/-- A system message recording a membership change. -/
def mkSystemMsg (mid : MsgId) (senderId : UserId) (gid : GroupId) (content : String) : Msg :=
  { id := mid, sender := senderId, receiver := none, group := some gid,
    content := content, messageType := "system", hasAttachment := false,
    isRead := false, reactions := [], isDeleted := false, deletedBy := none }

/-- `POST /create` (`routes/groups.js`): name validation, member-id
validation, then the group document is saved (running the pre-save hook).
Returns the world, the HTTP status and the id of the created group. -/
def createGroupRoute (w : World) (creator : UserId) (name : String)
    (memberIds : List UserId) : World × Nat × Option GroupId :=
  if jsTrim name = "" then (w, 400, none)
  else
    let validMembers := memberIds.filter fun mid => (findUser w mid).isSome
    let g0 : Group :=
      { id := w.nextGroupId, name := jsTrim name, createdBy := creator, admins := [],
        members := creator :: validMembers, isActive := true,
        onlyAdminsCanSendMessages := false, lastMessage := none }
    let g := preSaveGroup g0
    ({ w with groups := w.groups ++ [g], nextGroupId := w.nextGroupId + 1 }, 201, some g.id)

/-- `DELETE /:groupId/members/:memberId`: authorization is creator-or-admin
on an active group; the target must currently be a member; then the target is
filtered out of `members` and `admins` and a system message is recorded.  The
route never compares the target against `createdBy`. -/
def removeMemberRoute (w : World) (requester : UserId) (gid : GroupId)
    (memberId : UserId) : World × Nat :=
  match findGroupAdminQ w gid requester with
  | none => (w, 404)
  | some g =>
    if !(g.members.contains memberId) then (w, 400)
    else
      let sys := mkSystemMsg w.nextMsgId requester gid
        ("Removed " ++ (match findUser w memberId with
          | some u => u.name
          | none => "Unknown") ++ " from the group")
      let g2 :=
        { g with
            members := g.members.filter (fun x => x != memberId),
            admins := g.admins.filter (fun x => x != memberId),
            lastMessage := some sys.id }
      (updateGroup
        { w with messages := w.messages ++ [sys], nextMsgId := w.nextMsgId + 1 } g2, 200)

/-- `POST /:groupId/leave`: a member may leave unless they are the creator,
in which case the route answers 400 and changes nothing. -/
def leaveGroupRoute (w : World) (requester : UserId) (gid : GroupId) : World × Nat :=
  match findGroupMemberQ w gid requester with
  | none => (w, 404)
  | some g =>
    if g.createdBy == requester then (w, 400)
    else
      let sys := mkSystemMsg w.nextMsgId requester gid
        ((match findUser w requester with
          | some u => u.name
          | none => "Unknown") ++ " left the group")
      let g2 :=
        { g with
            members := g.members.filter (fun x => x != requester),
            admins := g.admins.filter (fun x => x != requester),
            lastMessage := some sys.id }
      (updateGroup
        { w with messages := w.messages ++ [sys], nextMsgId := w.nextMsgId + 1 } g2, 200)

/-- `POST /:groupId/members`: creator-or-admin adds the ids that exist and
are not yet members; a system message records the addition. -/
def addMembersRoute (w : World) (requester : UserId) (gid : GroupId)
    (memberIds : List UserId) : World × Nat :=
  if memberIds.isEmpty then (w, 400)
  else
    match findGroupAdminQ w gid requester with
    | none => (w, 404)
    | some g =>
      let newMembers := memberIds.filter fun mid =>
        !(g.members.contains mid) && (findUser w mid).isSome
      if newMembers.isEmpty then (w, 400)
      else
        let names := newMembers.filterMap fun mid => (findUser w mid).map (·.name)
        let sys := mkSystemMsg w.nextMsgId requester gid
          ("Added " ++ String.intercalate ", " names ++ " to the group")
        let g2 := { g with members := g.members ++ newMembers, lastMessage := some sys.id }
        (updateGroup
          { w with messages := w.messages ++ [sys], nextMsgId := w.nextMsgId + 1 } g2, 200)

def errDelNotFound : String := "Message not found or unauthorized"
def errMsgNotFound : String := "Message not found"
def errInvalidReaction : String := "Invalid reaction"

/-- `socket.on("delete-message")`: the message must exist, belong to the
requester as sender, and not already be deleted (both the restricted query
and the manual fallback check require `isDeleted:false`); then the tombstone
is written (placeholder content, type `"deleted"`) and the deletion is echoed
to the requester and forwarded to the online other participants. -/
def deleteMessageSock (w : World) (u : UserId) (mid : MsgId) : World × List Ev :=
  match findMsg w mid with
  | none => (w, [.messageError u errDelNotFound])
  | some m =>
    if m.sender == u && !m.isDeleted then
      let m2 :=
        { m with
            isDeleted := true, deletedBy := some u,
            content := "This message was deleted", messageType := "deleted" }
      let w2 := updateMsg w m2
      let fan :=
        match m.group with
        | some gid =>
          match findGroupById w gid with
          | some g =>
            (g.members.filter fun x => isOnline w x && x != u).map
              fun x => Ev.messageDeleted x m.id
          | none => []
        | none =>
          match m.receiver with
          | some rid => if isOnline w rid then [Ev.messageDeleted rid m.id] else []
          | none => []
      (w2, Ev.messageDeleted u m.id :: fan)
    else (w, [.messageError u errDelNotFound])

def validReactions : List String := ["👍", "❤️", "😂", "😮", "😢", "😡", "👎"]

/-- The reaction upsert shared by the socket handler and the HTTP route:
update the user entry found by `findIndex`, or push a new one. -/
def upsertReaction (rs : List ReactionRec) (u : UserId) (r : String) : List ReactionRec :=
  match rs.findIdx? (fun e => e.user == u) with
  | some i => rs.set i { user := u, reaction := r }
  | none => rs ++ [{ user := u, reaction := r }]

/-- `socket.on("add-reaction")`: reaction validation, lookup restricted to
`isDeleted:false`, then the upsert, an echo to the requester and forwarding
to online other participants. -/
def addReactionSock (w : World) (u : UserId) (mid : MsgId) (reaction : String) :
    World × List Ev :=
  if !(validReactions.contains reaction) then (w, [.messageError u errInvalidReaction])
  else
    match findMsgLive w mid with
    | none => (w, [.messageError u errMsgNotFound])
    | some m =>
      let m2 := { m with reactions := upsertReaction m.reactions u reaction }
      let w2 := updateMsg w m2
      let fan :=
        match m.group with
        | some gid =>
          match findGroupById w gid with
          | some g =>
            (g.members.filter fun x => isOnline w x && x != u).map
              fun x => Ev.reactionAdded x m.id
          | none => []
        | none =>
          match m.receiver with
          | some rid => if isOnline w rid then [Ev.reactionAdded rid m.id] else []
          | none => []
      (w2, Ev.reactionAdded u m.id :: fan)

/-- `socket.on("remove-reaction")`: lookup restricted to `isDeleted:false`,
then the requester entries are filtered out of `reactions`. -/
def removeReactionSock (w : World) (u : UserId) (mid : MsgId) : World × List Ev :=
  match findMsgLive w mid with
  | none => (w, [.messageError u errMsgNotFound])
  | some m =>
    let m2 := { m with reactions := m.reactions.filter (fun e => e.user != u) }
    let w2 := updateMsg w m2
    let fan :=
      match m.group with
      | some gid =>
        match findGroupById w gid with
        | some g =>
          (g.members.filter fun x => isOnline w x && x != u).map
            fun x => Ev.reactionRemoved x m.id
        | none => []
      | none =>
        match m.receiver with
        | some rid => if isOnline w rid then [Ev.reactionRemoved rid m.id] else []
        | none => []
    (w2, Ev.reactionRemoved u m.id :: fan)

/-- Modelled from the spec: the Call model file (`models/Call.js`) is not
among the sources, only its callers are.  `markAsMissed` is the transition
entered automatically when call-initiate finds no live presence entry for
the receiver — the call status becomes `"missed"`. -/
def Call.markAsMissed (c : Call) : Call := { c with status := "missed" }

/-- `socket.on("call-initiate")`: requires a receiver id, an existing
receiver different from the caller; creates the call in `"initiated"`
status, acks the caller, and either delivers `incoming-call` to an online
receiver or marks the call missed.  No blocking or friendship check. -/
def callInitiate (w : World) (u : UserId) (receiverId : Option UserId)
    (callType : String) : World × List Ev :=
  match receiverId with
  | none => (w, [.callError u "Receiver ID is required"])
  | some rid =>
    match findUser w rid with
    | none => (w, [.callError u "Receiver not found"])
    | some _ =>
      if u == rid then (w, [.callError u "Cannot call yourself"])
      else
        let call : Call :=
          { id := w.nextCallId, caller := u, receiver := rid,
            callType := callType, status := "initiated" }
        if isOnline w rid then
          ({ w with calls := w.calls ++ [call], nextCallId := w.nextCallId + 1 },
            [Ev.callInitiated u call.id, Ev.incomingCall rid call.id])
        else
          ({ w with calls := w.calls ++ [call.markAsMissed],
                    nextCallId := w.nextCallId + 1 },
            [Ev.callInitiated u call.id, Ev.callMissed u call.id])

/-- `socket.on("call-answer")`: the call must exist and the requester must be
its receiver; then — with no check of the current status — the status is set
to `"answered"` and `call-answered` is emitted to the caller when online. -/
def callAnswer (w : World) (u : UserId) (cid : CallId) : World × List Ev :=
  match findCall w cid with
  | none => (w, [.callError u "Call not found"])
  | some call =>
    if call.receiver != u then
      (w, [.callError u "Not authorized to answer this call"])
    else
      let call2 := { call with status := "answered" }
      let w2 := updateCall w call2
      if isOnline w call.caller then (w2, [Ev.callAnswered call.caller call.id])
      else (w2, [])

/-- Exactly one of `receiver`/`group` is set on a message. -/
def msgExclusive (m : Msg) : Bool :=
  (m.receiver.isSome && !m.group.isSome) || (!m.receiver.isSome && m.group.isSome)

def storeExclusive (w : World) : Bool :=
  w.messages.all msgExclusive

end ChatApp

namespace ChatApp

/-- Helper for concrete witnesses. -/
def mkUser (i : Nat) (nm : String) (bl fr : List Nat) : UserRec :=
  ⟨i, nm, bl, fr⟩

/-- The empty world. -/
def emptyW : World := ⟨[], [], [], [], [], [], 0, 0, 0, 0⟩

/-- The pre-save hook keeps `createdBy` and makes it a member and an admin. -/
theorem preSaveGroup_spec (g : Group) :
    (preSaveGroup g).createdBy = g.createdBy ∧
    g.createdBy ∈ (preSaveGroup g).members ∧
    g.createdBy ∈ (preSaveGroup g).admins := by
  by_cases hA : g.createdBy ∈ g.admins <;>
    by_cases hM : g.createdBy ∈ g.members <;>
      simp [preSaveGroup, hA, hM]

end ChatApp

/-- C2: for users `A` and `B`, if `A` blocks `B` or `B` blocks `A`, then a
well-formed direct send-message from `B` to `A` emits exactly one
authorization error to the sender `B`, persists nothing and delivers nothing
to `A` (the world is unchanged and the only event targets `B`). -/
theorem blocking_symmetry (w : ChatApp.World) (A B : ChatApp.UserId)
    (uA uB : ChatApp.UserRec) (d : ChatApp.SendData)
    (hA : ChatApp.findUser w A = some uA)
    (hB : ChatApp.findUser w B = some uB)
    (hrid : d.receiverId = some A)
    (hgrp : d.isGroupChat = false)
    (hcontent : (ChatApp.strTruthy d.content || d.hasAttachment) = true)
    (hblocked : uA.blockedUsers.contains B = true ∨ uB.blockedUsers.contains A = true) :
    ChatApp.sendMessageSock w B d =
      (w, [ChatApp.Ev.messageError B ChatApp.errBlocked]) := by
  have hor : A ∈ uB.blockedUsers ∨ B ∈ uA.blockedUsers := by
    rcases hblocked with h | h
    · right; simpa using h
    · left; simpa using h
  simp only [ChatApp.sendMessageSock, hrid, hgrp, hcontent, hA, hB]
  simp only [if_true, Bool.false_eq_true, if_false]
  rcases hor with h | h <;> simp [h]

/-- Witness for C2: user 2 has blocked user 1, so user 1 sending to user 2
gets only the blocked error. -/
theorem blocking_symmetry_witness :
    (ChatApp.findUser
        { ChatApp.emptyW with
            users := [ChatApp.mkUser 1 "B" [] [2], ChatApp.mkUser 2 "A" [1] []] } 2
      = some (ChatApp.mkUser 2 "A" [1] []) ∧
      ((ChatApp.mkUser 2 "A" [1] []).blockedUsers.contains 1 = true ∨
        (ChatApp.mkUser 1 "B" [] [2]).blockedUsers.contains 2 = true)) ∧
    ChatApp.sendMessageSock
        { ChatApp.emptyW with
            users := [ChatApp.mkUser 1 "B" [] [2], ChatApp.mkUser 2 "A" [1] []] } 1
        ⟨some 2, some "hi", "text", false, false⟩ =
      ({ ChatApp.emptyW with
          users := [ChatApp.mkUser 1 "B" [] [2], ChatApp.mkUser 2 "A" [1] []] },
        [ChatApp.Ev.messageError 1 ChatApp.errBlocked]) :=
  ⟨⟨by decide, Or.inl (by decide)⟩,
    blocking_symmetry _ 2 1 (ChatApp.mkUser 2 "A" [1] []) (ChatApp.mkUser 1 "B" [] [2])
      ⟨some 2, some "hi", "text", false, false⟩
      (by decide) (by decide) rfl rfl (by decide) (Or.inl (by decide))⟩

/-- Three plain users for the group counterexample. -/
def ChatApp.cexGroupW : ChatApp.World :=
  { ChatApp.emptyW with
      users := [ChatApp.mkUser 0 "A" [] [], ChatApp.mkUser 1 "B" [] [],
        ChatApp.mkUser 2 "C" [] []] }

/-- C3 counterexample: create a group with creator 0 and members 1,2, then
issue remove-member for the creator (requested by the creator, who is an
admin).  The route answers 200 and the creator is gone from the group —
the removal is silently applied, not rejected. -/
theorem group_creator_removal_cex :
    (ChatApp.removeMemberRoute
        (ChatApp.createGroupRoute ChatApp.cexGroupW 0 "G" [1, 2]).1 0 0 0).2 = 200 ∧
    ∀ g ∈ (ChatApp.removeMemberRoute
        (ChatApp.createGroupRoute ChatApp.cexGroupW 0 "G" [1, 2]).1 0 0 0).1.groups,
      0 ∉ g.members ∧ 0 ∉ g.admins := by
  decide

/-- C3 amended: immediately after creation the creator is in both `members`
and `admins`; the leave-group route rejects the creator with 400 and changes
nothing; but the remove-member route applies removal of the creator (status
200, creator filtered out of members and admins) rather than rejecting it. -/
theorem group_creator_invariant_amended
    (w : ChatApp.World) (creator : ChatApp.UserId) (name : String)
    (memberIds : List ChatApp.UserId) (w2 : ChatApp.World) (gid : ChatApp.GroupId)
    (requester : ChatApp.UserId) (g : ChatApp.Group)
    (hname : ChatApp.jsTrim name ≠ "")
    (hg1 : ChatApp.findGroupMemberQ w2 gid creator = some g)
    (hg2 : ChatApp.findGroupAdminQ w2 gid requester = some g)
    (hcreator : g.createdBy = creator)
    (hmem : creator ∈ g.members) :
    (∃ gNew, (ChatApp.createGroupRoute w creator name memberIds).1.groups
        = w.groups ++ [gNew] ∧
      gNew.createdBy = creator ∧ creator ∈ gNew.members ∧ creator ∈ gNew.admins) ∧
    ChatApp.leaveGroupRoute w2 creator gid = (w2, 400) ∧
    ((ChatApp.removeMemberRoute w2 requester gid creator).2 = 200 ∧
      ∀ g' ∈ (ChatApp.removeMemberRoute w2 requester gid creator).1.groups,
        g'.id = g.id → creator ∉ g'.members ∧ creator ∉ g'.admins) := by
  refine ⟨?_, ?_, ?_⟩
  · simp only [ChatApp.createGroupRoute, if_neg hname]
    exact ⟨_, rfl, (ChatApp.preSaveGroup_spec _).1, (ChatApp.preSaveGroup_spec _).2.1,
      (ChatApp.preSaveGroup_spec _).2.2⟩
  · simp [ChatApp.leaveGroupRoute, hg1, hcreator]
  · constructor
    · simp [ChatApp.removeMemberRoute, hg2, hmem]
    · intro g' hg' hid
      simp only [ChatApp.removeMemberRoute, hg2] at hg'
      rw [if_neg (by simpa using hmem)] at hg'
      simp only [ChatApp.updateGroup, List.mem_map] at hg'
      obtain ⟨h, hh, heq⟩ := hg'
      by_cases hcase : (h.id == g.id) = true
      · rw [if_pos hcase] at heq
        subst heq
        constructor
        · simp
        · simp
      · rw [if_neg hcase] at heq
        subst heq
        exact absurd (by simpa using hid) hcase

/-- Witness for C3 amended: the concrete three-user world, creating group 0
and removing its creator. -/
theorem group_creator_invariant_amended_witness :
    (ChatApp.jsTrim "G" ≠ "" ∧
      ChatApp.findGroupMemberQ (ChatApp.createGroupRoute ChatApp.cexGroupW 0 "G" [1, 2]).1 0 0
        = some ⟨0, "G", 0, [0], [0, 1, 2], true, false, none⟩ ∧
      (0 : Nat) ∈ ([0, 1, 2] : List Nat)) ∧
    (∃ gNew, (ChatApp.createGroupRoute ChatApp.cexGroupW 0 "G" [1, 2]).1.groups
        = ChatApp.cexGroupW.groups ++ [gNew] ∧
      gNew.createdBy = 0 ∧ 0 ∈ gNew.members ∧ 0 ∈ gNew.admins) ∧
    ChatApp.leaveGroupRoute (ChatApp.createGroupRoute ChatApp.cexGroupW 0 "G" [1, 2]).1 0 0
      = ((ChatApp.createGroupRoute ChatApp.cexGroupW 0 "G" [1, 2]).1, 400) ∧
    ((ChatApp.removeMemberRoute
          (ChatApp.createGroupRoute ChatApp.cexGroupW 0 "G" [1, 2]).1 0 0 0).2 = 200 ∧
      ∀ g' ∈ (ChatApp.removeMemberRoute
          (ChatApp.createGroupRoute ChatApp.cexGroupW 0 "G" [1, 2]).1 0 0 0).1.groups,
        g'.id = (⟨0, "G", 0, [0], [0, 1, 2], true, false, none⟩ : ChatApp.Group).id →
          0 ∉ g'.members ∧ 0 ∉ g'.admins) :=
  ⟨⟨by decide, by decide, by decide⟩,
    group_creator_invariant_amended ChatApp.cexGroupW 0 "G" [1, 2]
      (ChatApp.createGroupRoute ChatApp.cexGroupW 0 "G" [1, 2]).1 0 0
      ⟨0, "G", 0, [0], [0, 1, 2], true, false, none⟩
      (by decide) (by decide) (by decide) (by decide) (by decide)⟩

/-- Two users, both online, with one call record already in `"declined"`
status. -/
def ChatApp.cexCallW : ChatApp.World :=
  { ChatApp.emptyW with
      users := [ChatApp.mkUser 0 "A" [] [], ChatApp.mkUser 1 "B" [] []],
      presence := [⟨0, none⟩, ⟨1, none⟩],
      calls := [⟨0, 0, 1, "voice", "declined"⟩],
      nextCallId := 1 }

/-- C4 counterexample: `call-answer` issued by the receiver on a call whose
status is already `"declined"` is not rejected — the status is overwritten to
`"answered"` and `call-answered` is re-broadcast to the caller. -/
theorem call_answer_illegal_transition_cex :
    (ChatApp.callAnswer ChatApp.cexCallW 1 0).2 = [ChatApp.Ev.callAnswered 0 0] ∧
    ∀ c ∈ (ChatApp.callAnswer ChatApp.cexCallW 1 0).1.calls, c.status = "answered" := by
  decide

/-- C4 amended: the `call-answer` handler enforces party authorization only.
A non-receiver is rejected with an error (sent only to the requester, no
broadcast); the receiver's answer is accepted for a call in any current
status — the status becomes `"answered"` and `call-answered` goes to the
caller when online, with no state-machine check. -/
theorem call_answer_authorization_amended
    (w : ChatApp.World) (u : ChatApp.UserId) (cid : ChatApp.CallId)
    (call : ChatApp.Call)
    (hc : ChatApp.findCall w cid = some call) :
    (call.receiver ≠ u →
      ChatApp.callAnswer w u cid =
        (w, [ChatApp.Ev.callError u "Not authorized to answer this call"])) ∧
    (call.receiver = u →
      (ChatApp.callAnswer w u cid).1 =
          ChatApp.updateCall w { call with status := "answered" } ∧
      (ChatApp.callAnswer w u cid).2 =
        (if ChatApp.isOnline w call.caller then
          [ChatApp.Ev.callAnswered call.caller call.id] else [])) := by
  constructor
  · intro hne
    have hb : (call.receiver != u) = true := by simpa using hne
    simp [ChatApp.callAnswer, hc, hb]
  · intro heq
    have hb : (call.receiver != u) = false := by simp [heq]
    refine ⟨?_, ?_⟩ <;>
      simp only [ChatApp.callAnswer, hc, hb, Bool.false_eq_true, if_false] <;>
      by_cases ho : ChatApp.isOnline w call.caller = true <;>
      simp [ho]

/-- Witness for C4 amended: the declined call of `cexCallW`, answered by its
receiver 1. -/
theorem call_answer_authorization_amended_witness :
    ChatApp.findCall ChatApp.cexCallW 0 = some ⟨0, 0, 1, "voice", "declined"⟩ ∧
    (((⟨0, 0, 1, "voice", "declined"⟩ : ChatApp.Call).receiver ≠ 1 →
      ChatApp.callAnswer ChatApp.cexCallW 1 0 =
        (ChatApp.cexCallW, [ChatApp.Ev.callError 1 "Not authorized to answer this call"])) ∧
    ((⟨0, 0, 1, "voice", "declined"⟩ : ChatApp.Call).receiver = 1 →
      (ChatApp.callAnswer ChatApp.cexCallW 1 0).1 =
          ChatApp.updateCall ChatApp.cexCallW
            { (⟨0, 0, 1, "voice", "declined"⟩ : ChatApp.Call) with status := "answered" } ∧
      (ChatApp.callAnswer ChatApp.cexCallW 1 0).2 =
        (if ChatApp.isOnline ChatApp.cexCallW
            (⟨0, 0, 1, "voice", "declined"⟩ : ChatApp.Call).caller then
          [ChatApp.Ev.callAnswered (⟨0, 0, 1, "voice", "declined"⟩ : ChatApp.Call).caller
            (⟨0, 0, 1, "voice", "declined"⟩ : ChatApp.Call).id] else []))) :=
  ⟨by decide, call_answer_authorization_amended ChatApp.cexCallW 1 0
    ⟨0, 0, 1, "voice", "declined"⟩ (by decide)⟩

namespace ChatApp

/-- Updating the store at the id found by `find?` makes `find?` return the
updated document. -/
theorem find_update (l : List Msg) (mid : MsgId) (m m2 : Msg)
    (hm : l.find? (fun x => x.id == mid) = some m) (hid : m2.id = m.id) :
    (l.map (fun x => if x.id == m2.id then m2 else x)).find? (fun x => x.id == mid)
      = some m2 := by
  have hmid : m.id = mid := by simpa using List.find?_some hm
  induction l with
  | nil => simp at hm
  | cons a t ih =>
    by_cases ha : (a.id == mid) = true
    · have hcons : (a :: t).find? (fun x => x.id == mid) = some a :=
        List.find?_cons_of_pos t ha
      rw [hcons] at hm
      have hma : m = a := (Option.some_inj.mp hm).symm
      have h2 : (a.id == m2.id) = true := by simp [hid, hma]
      rw [List.map_cons]
      have hf : (if (a.id == m2.id) = true then m2 else a) = m2 := by
        rw [h2]
        simp
      rw [hf]
      exact List.find?_cons_of_pos _ (by simp [hid, hmid])
    · have ha' : (a.id == mid) = false := by simpa using ha
      have hcons : (a :: t).find? (fun x => x.id == mid)
          = t.find? (fun x => x.id == mid) :=
        List.find?_cons_of_neg t (by simp [ha'])
      rw [hcons] at hm
      have hane : (a.id == m2.id) = false := by
        have hne : a.id ≠ mid := by simpa using ha'
        simp [hid, hmid, hne]
      rw [List.map_cons]
      have hf : (if (a.id == m2.id) = true then m2 else a) = a := by
        rw [hane]
        simp
      rw [hf]
      have hcons2 :
          (a :: t.map fun x => if x.id == m2.id then m2 else x).find?
              (fun x => x.id == mid)
            = (t.map fun x => if x.id == m2.id then m2 else x).find?
              (fun x => x.id == mid) :=
        List.find?_cons_of_neg _ (by simp [ha'])
      rw [hcons2]
      exact ih hm

end ChatApp

/-- C5: with a message `m` stored under the (unique) id `mid`: deleting an
already-deleted message fails with the not-found/unauthorized error and
changes nothing; adding a valid reaction to a deleted message fails with the
not-found error and changes nothing; and a first deletion by the sender
stores a tombstone under the same id — content replaced by the fixed
placeholder, type `"deleted"` — after which a second delete fails. -/
theorem tombstone_idempotence
    (w : ChatApp.World) (u : ChatApp.UserId) (mid : ChatApp.MsgId) (m : ChatApp.Msg)
    (hm : ChatApp.findMsg w mid = some m)
    (huniq : ∀ m' ∈ w.messages, m'.id = mid → m' = m) :
    (m.isDeleted = true →
      ChatApp.deleteMessageSock w u mid =
        (w, [ChatApp.Ev.messageError u ChatApp.errDelNotFound]) ∧
      ∀ r ∈ ChatApp.validReactions,
        ChatApp.addReactionSock w u mid r =
          (w, [ChatApp.Ev.messageError u ChatApp.errMsgNotFound])) ∧
    (m.isDeleted = false → m.sender = u →
      ChatApp.findMsg (ChatApp.deleteMessageSock w u mid).1 mid =
        some { m with
                isDeleted := true, deletedBy := some u,
                content := "This message was deleted", messageType := "deleted" } ∧
      ChatApp.deleteMessageSock (ChatApp.deleteMessageSock w u mid).1 u mid =
        ((ChatApp.deleteMessageSock w u mid).1,
          [ChatApp.Ev.messageError u ChatApp.errDelNotFound])) := by
  constructor
  · intro hdel
    constructor
    · simp [ChatApp.deleteMessageSock, hm, hdel]
    · intro r hr
      have hlive : ChatApp.findMsgLive w mid = none := by
        unfold ChatApp.findMsgLive
        rw [List.find?_eq_none]
        intro x hx
        by_cases hxid : x.id = mid
        · have : x = m := huniq x hx hxid
          subst this
          simp [hdel]
        · simp [hxid]
      simp [ChatApp.addReactionSock, hr, hlive]
  · intro hnd hs
    have hcond : (m.sender == u && !m.isDeleted) = true := by simp [hs, hnd]
    have hres : ChatApp.findMsg (ChatApp.deleteMessageSock w u mid).1 mid =
        some { m with
                isDeleted := true, deletedBy := some u,
                content := "This message was deleted", messageType := "deleted" } := by
      simp only [ChatApp.deleteMessageSock, hm, hcond, if_true]
      exact ChatApp.find_update w.messages mid m _ hm rfl
    refine ⟨hres, ?_⟩
    set w2 := (ChatApp.deleteMessageSock w u mid).1 with hw2
    simp only [ChatApp.deleteMessageSock, hres]
    simp

/-- Witness for C5: a single stored text message from user 0 to user 1,
deleted by its sender. -/
theorem tombstone_idempotence_witness :
    (ChatApp.findMsg
        { ChatApp.emptyW with
            messages := [⟨0, 0, some 1, none, "hi", "text", false, false, [], false, none⟩],
            nextMsgId := 1 } 0
      = some ⟨0, 0, some 1, none, "hi", "text", false, false, [], false, none⟩ ∧
      ∀ m' ∈ ({ ChatApp.emptyW with
          messages := [⟨0, 0, some 1, none, "hi", "text", false, false, [], false, none⟩],
          nextMsgId := 1 } : ChatApp.World).messages, m'.id = 0 →
        m' = ⟨0, 0, some 1, none, "hi", "text", false, false, [], false, none⟩) ∧
    ((⟨0, 0, some 1, none, "hi", "text", false, false, [], false, none⟩ : ChatApp.Msg).isDeleted = false →
      (⟨0, 0, some 1, none, "hi", "text", false, false, [], false, none⟩ : ChatApp.Msg).sender = 0 →
      ChatApp.findMsg
          (ChatApp.deleteMessageSock
            { ChatApp.emptyW with
                messages := [⟨0, 0, some 1, none, "hi", "text", false, false, [], false, none⟩],
                nextMsgId := 1 } 0 0).1 0 =
        some { (⟨0, 0, some 1, none, "hi", "text", false, false, [], false, none⟩ : ChatApp.Msg) with
                isDeleted := true, deletedBy := some 0,
                content := "This message was deleted", messageType := "deleted" } ∧
      ChatApp.deleteMessageSock
          (ChatApp.deleteMessageSock
            { ChatApp.emptyW with
                messages := [⟨0, 0, some 1, none, "hi", "text", false, false, [], false, none⟩],
                nextMsgId := 1 } 0 0).1 0 0 =
        ((ChatApp.deleteMessageSock
            { ChatApp.emptyW with
                messages := [⟨0, 0, some 1, none, "hi", "text", false, false, [], false, none⟩],
                nextMsgId := 1 } 0 0).1,
          [ChatApp.Ev.messageError 0 ChatApp.errDelNotFound])) :=
  ⟨⟨by decide, by decide⟩,
    (tombstone_idempotence
      { ChatApp.emptyW with
          messages := [⟨0, 0, some 1, none, "hi", "text", false, false, [], false, none⟩],
          nextMsgId := 1 } 0 0
      ⟨0, 0, some 1, none, "hi", "text", false, false, [], false, none⟩
      (by decide) (by decide)).2⟩

namespace ChatApp

theorem all_append_one {l : List Msg} {m : Msg} (hl : l.all msgExclusive = true)
    (hm : msgExclusive m = true) : (l ++ [m]).all msgExclusive = true := by
  simp [List.all_append, hl, hm]

theorem all_update {l : List Msg} {m2 : Msg} (hl : l.all msgExclusive = true)
    (hm : msgExclusive m2 = true) :
    (l.map (fun x => if x.id == m2.id then m2 else x)).all msgExclusive = true := by
  induction l with
  | nil => rfl
  | cons a t ih =>
    simp only [List.all_cons, Bool.and_eq_true] at hl
    by_cases ha : (a.id == m2.id) = true
    · simp only [List.map_cons, ha, if_pos, List.all_cons, Bool.and_eq_true]
      exact ⟨hm, ih hl.2⟩
    · simp only [List.map_cons, ha, Bool.false_eq_true, if_neg, List.all_cons,
        Bool.and_eq_true]
      refine ⟨hl.1, ih hl.2⟩

theorem sendMessageSock_exclusive (w : World) (u : UserId) (d : SendData)
    (hw : storeExclusive w = true) :
    storeExclusive (sendMessageSock w u d).1 = true := by
  unfold sendMessageSock sendMessageGroup sendMessageDirect
  dsimp only
  repeat' split
  all_goals
    first
    | exact hw
    | (simp_all [storeExclusive, updateGroup, updateRoom, msgExclusive,
        List.all_append])

end ChatApp

namespace ChatApp

theorem httpSendMessage_exclusive (w : World) (u : UserId) (d : HttpSendData)
    (hw : storeExclusive w = true) :
    storeExclusive (httpSendMessage w u d).1 = true := by
  unfold httpSendMessage
  dsimp only
  repeat' split
  all_goals
    first
    | exact hw
    | (simp_all [storeExclusive, msgExclusive, List.all_append,
        Option.isSome_iff_ne_none])

theorem removeMemberRoute_exclusive (w : World) (r : UserId) (gid : GroupId)
    (mid : UserId) (hw : storeExclusive w = true) :
    storeExclusive (removeMemberRoute w r gid mid).1 = true := by
  unfold removeMemberRoute mkSystemMsg
  dsimp only
  repeat' split
  all_goals
    first
    | exact hw
    | (simp_all [storeExclusive, updateGroup, msgExclusive, List.all_append])

theorem leaveGroupRoute_exclusive (w : World) (r : UserId) (gid : GroupId)
    (hw : storeExclusive w = true) :
    storeExclusive (leaveGroupRoute w r gid).1 = true := by
  unfold leaveGroupRoute mkSystemMsg
  dsimp only
  repeat' split
  all_goals
    first
    | exact hw
    | (simp_all [storeExclusive, updateGroup, msgExclusive, List.all_append])

theorem addMembersRoute_exclusive (w : World) (r : UserId) (gid : GroupId)
    (mids : List UserId) (hw : storeExclusive w = true) :
    storeExclusive (addMembersRoute w r gid mids).1 = true := by
  unfold addMembersRoute mkSystemMsg
  dsimp only
  repeat' split
  all_goals
    first
    | exact hw
    | (simp_all [storeExclusive, updateGroup, msgExclusive, List.all_append])

theorem createGroupRoute_exclusive (w : World) (c : UserId) (nm : String)
    (mids : List UserId) (hw : storeExclusive w = true) :
    storeExclusive (createGroupRoute w c nm mids).1 = true := by
  unfold createGroupRoute
  dsimp only
  repeat' split
  all_goals exact hw

theorem deleteMessageSock_exclusive (w : World) (u : UserId) (mid : MsgId)
    (hw : storeExclusive w = true) :
    storeExclusive (deleteMessageSock w u mid).1 = true := by
  unfold deleteMessageSock
  dsimp only
  cases heq : findMsg w mid with
  | none => exact hw
  | some m =>
    dsimp only
    by_cases hc : (m.sender == u && !m.isDeleted) = true
    · rw [if_pos hc]
      have hmem := List.mem_of_find?_eq_some heq
      have hm : msgExclusive m = true := by
        have hall : ∀ x ∈ w.messages, msgExclusive x = true := by
          simpa [storeExclusive, List.all_eq_true] using hw
        exact hall m hmem
      exact all_update hw hm
    · rw [if_neg hc]
      exact hw

theorem addReactionSock_exclusive (w : World) (u : UserId) (mid : MsgId)
    (r : String) (hw : storeExclusive w = true) :
    storeExclusive (addReactionSock w u mid r).1 = true := by
  unfold addReactionSock
  dsimp only
  by_cases hv : (!validReactions.contains r) = true
  · rw [if_pos hv]
    exact hw
  · rw [if_neg hv]
    cases heq : findMsgLive w mid with
    | none => exact hw
    | some m =>
      dsimp only
      have hmem := List.mem_of_find?_eq_some heq
      have hm : msgExclusive m = true := by
        have hall : ∀ x ∈ w.messages, msgExclusive x = true := by
          simpa [storeExclusive, List.all_eq_true] using hw
        exact hall m hmem
      exact all_update hw hm

theorem removeReactionSock_exclusive (w : World) (u : UserId) (mid : MsgId)
    (hw : storeExclusive w = true) :
    storeExclusive (removeReactionSock w u mid).1 = true := by
  unfold removeReactionSock
  dsimp only
  cases heq : findMsgLive w mid with
  | none => exact hw
  | some m =>
    dsimp only
    have hmem := List.mem_of_find?_eq_some heq
    have hm : msgExclusive m = true := by
      have hall : ∀ x ∈ w.messages, msgExclusive x = true := by
        simpa [storeExclusive, List.all_eq_true] using hw
      exact hall m hmem
    exact all_update hw hm

end ChatApp

/-- C6: when every persisted message has exactly one of `receiver`/`group`
set, this stays true after any message-producing or message-mutating
operation — the socket send (direct and group), `POST /send` (even with both
`receiverId` and `groupId` supplied), the group member routes producing
system messages, deletion, and reactions. -/
theorem message_exclusivity (w : ChatApp.World)
    (hw : ChatApp.storeExclusive w = true) :
    (∀ u d, ChatApp.storeExclusive (ChatApp.sendMessageSock w u d).1 = true) ∧
    (∀ u d, ChatApp.storeExclusive (ChatApp.httpSendMessage w u d).1 = true) ∧
    (∀ r gid mids, ChatApp.storeExclusive (ChatApp.addMembersRoute w r gid mids).1 = true) ∧
    (∀ r gid mid, ChatApp.storeExclusive (ChatApp.removeMemberRoute w r gid mid).1 = true) ∧
    (∀ r gid, ChatApp.storeExclusive (ChatApp.leaveGroupRoute w r gid).1 = true) ∧
    (∀ c nm mids, ChatApp.storeExclusive (ChatApp.createGroupRoute w c nm mids).1 = true) ∧
    (∀ u mid, ChatApp.storeExclusive (ChatApp.deleteMessageSock w u mid).1 = true) ∧
    (∀ u mid r, ChatApp.storeExclusive (ChatApp.addReactionSock w u mid r).1 = true) ∧
    (∀ u mid, ChatApp.storeExclusive (ChatApp.removeReactionSock w u mid).1 = true) :=
  ⟨fun u d => ChatApp.sendMessageSock_exclusive w u d hw,
    fun u d => ChatApp.httpSendMessage_exclusive w u d hw,
    fun r gid mids => ChatApp.addMembersRoute_exclusive w r gid mids hw,
    fun r gid mid => ChatApp.removeMemberRoute_exclusive w r gid mid hw,
    fun r gid => ChatApp.leaveGroupRoute_exclusive w r gid hw,
    fun c nm mids => ChatApp.createGroupRoute_exclusive w c nm mids hw,
    fun u mid => ChatApp.deleteMessageSock_exclusive w u mid hw,
    fun u mid r => ChatApp.addReactionSock_exclusive w u mid r hw,
    fun u mid => ChatApp.removeReactionSock_exclusive w u mid hw⟩

/-- Witness for C6 at the empty store: sending one direct and one group
message through `POST /send` (with both ids supplied) keeps exclusivity. -/
theorem message_exclusivity_witness :
    ChatApp.storeExclusive ChatApp.emptyW = true ∧
    ((∀ u d, ChatApp.storeExclusive (ChatApp.sendMessageSock ChatApp.emptyW u d).1 = true) ∧
    (∀ u d, ChatApp.storeExclusive (ChatApp.httpSendMessage ChatApp.emptyW u d).1 = true) ∧
    (∀ r gid mids, ChatApp.storeExclusive (ChatApp.addMembersRoute ChatApp.emptyW r gid mids).1 = true) ∧
    (∀ r gid mid, ChatApp.storeExclusive (ChatApp.removeMemberRoute ChatApp.emptyW r gid mid).1 = true) ∧
    (∀ r gid, ChatApp.storeExclusive (ChatApp.leaveGroupRoute ChatApp.emptyW r gid).1 = true) ∧
    (∀ c nm mids, ChatApp.storeExclusive (ChatApp.createGroupRoute ChatApp.emptyW c nm mids).1 = true) ∧
    (∀ u mid, ChatApp.storeExclusive (ChatApp.deleteMessageSock ChatApp.emptyW u mid).1 = true) ∧
    (∀ u mid r, ChatApp.storeExclusive (ChatApp.addReactionSock ChatApp.emptyW u mid r).1 = true) ∧
    (∀ u mid, ChatApp.storeExclusive (ChatApp.removeReactionSock ChatApp.emptyW u mid).1 = true)) :=
  ⟨by decide, message_exclusivity ChatApp.emptyW (by decide)⟩

/-- Users 0 and 1 are mutual friends with no blocks; only 0 is online. -/
def ChatApp.cexOfflineW : ChatApp.World :=
  { ChatApp.emptyW with
      users := [ChatApp.mkUser 0 "A" [] [1], ChatApp.mkUser 1 "B" [] [0]],
      presence := [⟨0, none⟩] }

/-- A 101-character message body. -/
def ChatApp.longContent : String := String.mk (List.replicate 101 'a')

/-- C7 counterexample: a direct message of 101 characters sent to an offline
friend produces a push notification whose body is the content truncated to
100 characters plus an ellipsis — not the message content itself. -/
theorem offline_push_body_cex :
    (ChatApp.sendMessageSock ChatApp.cexOfflineW 0
        ⟨some 1, some ChatApp.longContent, "text", false, false⟩).2 =
      [ChatApp.Ev.messageSent 0 0, ChatApp.Ev.newMessage 0 0,
        ChatApp.Ev.pushNotif 1 "A" (String.mk (List.replicate 100 'a') ++ "...")] ∧
    String.mk (List.replicate 100 'a') ++ "..." ≠ ChatApp.longContent := by
  constructor
  · decide
  · decide

/-- C7 amended: sending a direct message to an offline friend (no block in
either direction) emits exactly one `message-sent` ack and one `new-message`
self-echo to the sender and invokes the push service exactly once for the
receiver, with body equal to the trimmed content truncated to 100 characters
plus an ellipsis when longer (`"New message"` when empty); the message is
persisted with `isRead = false` and the receiver's unread count increases by
exactly one. -/
theorem offline_message_scenario_amended
    (w : ChatApp.World) (A B : ChatApp.UserId) (uA uB : ChatApp.UserRec)
    (d : ChatApp.SendData)
    (hA : ChatApp.findUser w A = some uA)
    (hB : ChatApp.findUser w B = some uB)
    (hrid : d.receiverId = some B)
    (hgrp : d.isGroupChat = false)
    (hnb1 : uA.blockedUsers.contains B = false)
    (hnb2 : uB.blockedUsers.contains A = false)
    (hfr : uA.friends.contains B = true)
    (hoffline : ChatApp.findPres w B = none)
    (hcontent : ChatApp.strTruthy d.content = true)
    (htrim : ChatApp.trimOpt d.content ≠ "")
    (htype : ChatApp.msgTypeEnum.contains d.messageType = true) :
    (ChatApp.sendMessageSock w A d).1.messages =
      w.messages ++ [⟨w.nextMsgId, A, some B, none, ChatApp.trimOpt d.content,
        d.messageType, d.hasAttachment, false, [], false, none⟩] ∧
    (ChatApp.sendMessageSock w A d).2 =
      [ChatApp.Ev.messageSent A w.nextMsgId, ChatApp.Ev.newMessage A w.nextMsgId,
        ChatApp.Ev.pushNotif B uA.name (ChatApp.notifBody (ChatApp.trimOpt d.content))] ∧
    ChatApp.unreadCount (ChatApp.sendMessageSock w A d).1 B =
      ChatApp.unreadCount w B + 1 := by
  have hvalid : ChatApp.msgValid
      ⟨w.nextMsgId, A, some B, none, ChatApp.trimOpt d.content, d.messageType,
        d.hasAttachment, false, [], false, none⟩ = true := by
    simp only [ChatApp.msgValid]
    simp [htrim]
    simpa using htype
  have honline : ChatApp.isOnline w B = false := by
    simp [ChatApp.isOnline, hoffline]
  have hnb1m : B ∉ uA.blockedUsers := by simpa using hnb1
  have hnb2m : A ∉ uB.blockedUsers := by simpa using hnb2
  have hsend : ChatApp.sendMessageSock w A d =
      ChatApp.sendMessageDirect w A uA B d := by
    simp [ChatApp.sendMessageSock, hrid, hgrp, hcontent, hA, hB, hnb1m, hnb2m]
  rw [hsend]
  unfold ChatApp.sendMessageDirect
  rw [if_pos (by simpa using hfr)]
  rw [hoffline]
  dsimp only
  rw [if_pos hvalid]
  cases hroom : ChatApp.findRoom w A B with
  | none =>
    dsimp only
    refine ⟨rfl, ?_, ?_⟩
    · simp [honline]
    · simp [ChatApp.unreadCount, List.filter_append]
  | some room =>
    dsimp only
    refine ⟨rfl, ?_, ?_⟩
    · simp [honline]
    · simp [ChatApp.updateRoom, ChatApp.unreadCount, List.filter_append]

/-- Witness for C7 amended: the two-friend world with content `"hi"`. -/
theorem offline_message_scenario_amended_witness :
    (ChatApp.findUser ChatApp.cexOfflineW 0 = some (ChatApp.mkUser 0 "A" [] [1]) ∧
      ChatApp.findPres ChatApp.cexOfflineW 1 = none ∧
      ChatApp.trimOpt (some "hi") ≠ "") ∧
    ((ChatApp.sendMessageSock ChatApp.cexOfflineW 0 ⟨some 1, some "hi", "text", false, false⟩).1.messages =
      ChatApp.cexOfflineW.messages ++ [⟨ChatApp.cexOfflineW.nextMsgId, 0, some 1, none,
        ChatApp.trimOpt (some "hi"), "text", false, false, [], false, none⟩] ∧
    (ChatApp.sendMessageSock ChatApp.cexOfflineW 0 ⟨some 1, some "hi", "text", false, false⟩).2 =
      [ChatApp.Ev.messageSent 0 ChatApp.cexOfflineW.nextMsgId,
        ChatApp.Ev.newMessage 0 ChatApp.cexOfflineW.nextMsgId,
        ChatApp.Ev.pushNotif 1 (ChatApp.mkUser 0 "A" [] [1]).name
          (ChatApp.notifBody (ChatApp.trimOpt (some "hi")))] ∧
    ChatApp.unreadCount (ChatApp.sendMessageSock ChatApp.cexOfflineW 0
        ⟨some 1, some "hi", "text", false, false⟩).1 1 =
      ChatApp.unreadCount ChatApp.cexOfflineW 1 + 1) :=
  ⟨⟨by decide, by decide, by decide⟩,
    offline_message_scenario_amended ChatApp.cexOfflineW 0 1
      (ChatApp.mkUser 0 "A" [] [1]) (ChatApp.mkUser 1 "B" [] [0])
      ⟨some 1, some "hi", "text", false, false⟩
      (by decide) (by decide) rfl rfl (by decide) (by decide) (by decide)
      (by decide) (by decide) (by decide) (by decide)⟩

namespace ChatApp

/-- A reaction operation on one message: the upsert of `add-reaction` or the
filter of `remove-reaction`, by some user. -/
inductive ROp where
  | add (u : UserId) (r : String)
  | remove (u : UserId)
deriving Repr, DecidableEq

def applyROp (rs : List ReactionRec) : ROp → List ReactionRec
  | .add u r => upsertReaction rs u r
  | .remove u => rs.filter (fun e => e.user != u)

/-- Reactions of a message created fresh (empty list) after a sequence of
reaction operations. -/
def applyROps (ops : List ROp) : List ReactionRec :=
  ops.foldl applyROp []

def lookupReaction (rs : List ReactionRec) (u : UserId) : Option String :=
  (rs.find? (fun e => e.user == u)).map (fun e => e.reaction)

def countU (rs : List ReactionRec) (v : UserId) : Nat :=
  (rs.filter (fun e => e.user == v)).length

theorem upsert_cons (a : ReactionRec) (t : List ReactionRec) (u : UserId) (r : String) :
    upsertReaction (a :: t) u r =
      if (a.user == u) = true then { user := u, reaction := r } :: t
      else a :: upsertReaction t u r := by
  by_cases ha : (a.user == u) = true
  · simp [upsertReaction, List.findIdx?_cons, ha]
  · simp only [upsertReaction, List.findIdx?_cons, ha, Bool.false_eq_true, if_neg,
      if_false]
    cases hf : t.findIdx? (fun e => e.user == u) with
    | none => simp [hf, ha]
    | some j => simp [hf, ha]

theorem countU_upsert_ne (rs : List ReactionRec) (u v : UserId) (r : String)
    (h : v ≠ u) : countU (upsertReaction rs u r) v = countU rs v := by
  have huv : (u == v) = false := by
    simp
    exact fun hh => h hh.symm
  induction rs with
  | nil => simp [upsertReaction, countU, huv]
  | cons a t ih =>
    rw [upsert_cons]
    by_cases ha : (a.user == u) = true
    · rw [if_pos ha]
      have hau : a.user = u := by simpa using ha
      simp [countU, List.filter_cons, huv, hau]
    · rw [if_neg ha]
      by_cases hav : (a.user == v) = true
      · simp only [countU, List.filter_cons, hav, if_pos, List.length_cons]
        simp only [countU] at ih
        simp [ih]
      · simp only [countU, List.filter_cons, hav, Bool.false_eq_true, if_neg, if_false]
        exact ih

theorem countU_upsert_self (rs : List ReactionRec) (u : UserId) (r : String)
    (h : countU rs u ≤ 1) : countU (upsertReaction rs u r) u ≤ 1 := by
  induction rs with
  | nil => simp [upsertReaction, countU]
  | cons a t ih =>
    rw [upsert_cons]
    by_cases ha : (a.user == u) = true
    · rw [if_pos ha]
      have hcnt : countU t u = 0 := by
        simp [countU, List.filter_cons, ha] at h
        simpa [countU] using h
      have hstep : countU ({ user := u, reaction := r } :: t) u = countU t u + 1 := by
        simp [countU, List.filter_cons]
      omega
    · rw [if_neg ha]
      have ht : countU t u ≤ 1 := by
        simpa [countU, List.filter_cons, ha] using h
      have := ih ht
      simpa [countU, List.filter_cons, ha] using this

theorem countU_filter_le (rs : List ReactionRec) (u v : UserId) :
    countU (rs.filter (fun e => e.user != u)) v ≤ countU rs v := by
  induction rs with
  | nil => simp [countU]
  | cons a t ih =>
    by_cases hq : (a.user != u) = true <;> by_cases hp : (a.user == v) = true <;>
      simp [countU, List.filter_cons, hq, hp] at ih ⊢ <;> omega

theorem countU_applyROps (ops : List ROp) (v : UserId) :
    countU (applyROps ops) v ≤ 1 := by
  suffices h : ∀ rs : List ReactionRec, (∀ x, countU rs x ≤ 1) →
      ∀ x, countU (ops.foldl applyROp rs) x ≤ 1 by
    exact h [] (fun x => by simp [countU]) v
  induction ops with
  | nil => intro rs h x; exact h x
  | cons op t ih =>
    intro rs h x
    refine ih (applyROp rs op) ?_ x
    intro y
    cases op with
    | add u r =>
      by_cases hy : y = u
      · subst hy
        exact countU_upsert_self rs y r (h y)
      · rw [show applyROp rs (ROp.add u r) = upsertReaction rs u r from rfl,
          countU_upsert_ne rs u y r hy]
        exact h y
    | remove u =>
      exact le_trans (countU_filter_le rs u y) (h y)

theorem lookup_upsert_self (rs : List ReactionRec) (u : UserId) (r : String) :
    lookupReaction (upsertReaction rs u r) u = some r := by
  induction rs with
  | nil => simp [upsertReaction, lookupReaction]
  | cons a t ih =>
    rw [upsert_cons]
    by_cases ha : (a.user == u) = true
    · rw [if_pos ha]
      simp [lookupReaction]
    · rw [if_neg ha]
      simpa [lookupReaction, List.find?_cons, ha] using ih

theorem lookup_remove_self (rs : List ReactionRec) (u : UserId) :
    lookupReaction (rs.filter (fun e => e.user != u)) u = none := by
  have hfind : (rs.filter (fun e => e.user != u)).find? (fun e => e.user == u) = none := by
    rw [List.find?_eq_none]
    intro x hx
    have := (List.mem_filter.mp hx).2
    simpa using this
  simp [lookupReaction, hfind]

theorem lookup_remove_ne (rs : List ReactionRec) (u v : UserId) (h : v ≠ u) :
    lookupReaction (rs.filter (fun e => e.user != u)) v = lookupReaction rs v := by
  induction rs with
  | nil => simp
  | cons a t ih =>
    by_cases hq : (a.user != u) = true
    · by_cases hv : (a.user == v) = true
      · simp [lookupReaction, List.filter_cons, hq, List.find?_cons, hv]
      · simpa [lookupReaction, List.filter_cons, hq, List.find?_cons, hv] using ih
    · have hau : a.user = u := by simpa using hq
      have huv : (u == v) = false := by
        simp
        exact fun hh => h hh.symm
      have hv : (a.user == v) = false := by simp [hau, huv]
      simpa [lookupReaction, List.filter_cons, hq, List.find?_cons, hv] using ih

end ChatApp

/-- C8: reactions of a message, starting from the empty list of a fresh
message, under any sequence of the handlers' reaction operations: every user
has at most one entry; an `add-reaction` as the most recent operation by a
user leaves that user's entry holding exactly the supplied value (last write
wins, by the `findIndex` upsert); `remove-reaction` deletes that user's entry
and leaves every other user's entry unchanged. -/
theorem reaction_uniqueness (ops : List ChatApp.ROp) (u : ChatApp.UserId) (r : String) :
    (∀ v, ChatApp.countU (ChatApp.applyROps ops) v ≤ 1) ∧
    ChatApp.lookupReaction (ChatApp.applyROps (ops ++ [ChatApp.ROp.add u r])) u = some r ∧
    ChatApp.lookupReaction (ChatApp.applyROps (ops ++ [ChatApp.ROp.remove u])) u = none ∧
    (∀ v, v ≠ u →
      ChatApp.lookupReaction (ChatApp.applyROps (ops ++ [ChatApp.ROp.remove u])) v =
        ChatApp.lookupReaction (ChatApp.applyROps ops) v) := by
  refine ⟨fun v => ChatApp.countU_applyROps ops v, ?_, ?_, ?_⟩
  · rw [ChatApp.applyROps, List.foldl_append]
    exact ChatApp.lookup_upsert_self _ u r
  · rw [ChatApp.applyROps, List.foldl_append]
    exact ChatApp.lookup_remove_self _ u
  · intro v hv
    rw [ChatApp.applyROps, List.foldl_append]
    exact ChatApp.lookup_remove_ne _ u v hv

/-- Witness for C8: two adds by user 0 (last write wins), one add by user 1,
then remove by user 0. -/
theorem reaction_uniqueness_witness :
    ((∀ v, ChatApp.countU (ChatApp.applyROps
        [ChatApp.ROp.add 0 "👍", ChatApp.ROp.add 1 "❤️", ChatApp.ROp.add 0 "😂"]) v ≤ 1) ∧
    ChatApp.lookupReaction (ChatApp.applyROps
        ([ChatApp.ROp.add 0 "👍", ChatApp.ROp.add 1 "❤️", ChatApp.ROp.add 0 "😂"] ++
          [ChatApp.ROp.add 0 "👎"])) 0 = some "👎" ∧
    ChatApp.lookupReaction (ChatApp.applyROps
        ([ChatApp.ROp.add 0 "👍", ChatApp.ROp.add 1 "❤️", ChatApp.ROp.add 0 "😂"] ++
          [ChatApp.ROp.remove 0])) 0 = none ∧
    (∀ v, v ≠ 0 →
      ChatApp.lookupReaction (ChatApp.applyROps
          ([ChatApp.ROp.add 0 "👍", ChatApp.ROp.add 1 "❤️", ChatApp.ROp.add 0 "😂"] ++
            [ChatApp.ROp.remove 0])) v =
        ChatApp.lookupReaction (ChatApp.applyROps
          [ChatApp.ROp.add 0 "👍", ChatApp.ROp.add 1 "❤️", ChatApp.ROp.add 0 "😂"]) v)) ∧
    ChatApp.lookupReaction (ChatApp.applyROps
        [ChatApp.ROp.add 0 "👍", ChatApp.ROp.add 1 "❤️", ChatApp.ROp.add 0 "😂"]) 0
      = some "😂" :=
  ⟨reaction_uniqueness [ChatApp.ROp.add 0 "👍", ChatApp.ROp.add 1 "❤️", ChatApp.ROp.add 0 "😂"]
      0 "👎", by decide⟩

/-- C9: the group branch of `send-message` authorizes on membership in an
active group only — `settings.onlyAdminsCanSendMessages` is never consulted.
With the flag enabled and a sender who is a member but not an admin, the send
succeeds: the message is persisted with the group id, the ack is emitted, and
the message is fanned out to every member (`new-message` to each online
member, a push notification to each offline member other than the sender). -/
theorem group_send_ignores_admin_only
    (w : ChatApp.World) (sender : ChatApp.UserId) (gid : ChatApp.GroupId)
    (g : ChatApp.Group) (d : ChatApp.SendData)
    (hg : ChatApp.findGroupMemberQ w gid sender = some g)
    (hflag : g.onlyAdminsCanSendMessages = true)
    (hnotadmin : sender ∉ g.admins)
    (hrid : d.receiverId = some gid)
    (hgrp : d.isGroupChat = true)
    (hcontent : ChatApp.strTruthy d.content = true)
    (htrim : ChatApp.trimOpt d.content ≠ "")
    (htype : ChatApp.msgTypeEnum.contains d.messageType = true) :
    (ChatApp.sendMessageSock w sender d).1.messages =
      w.messages ++ [⟨w.nextMsgId, sender, none, some gid, ChatApp.trimOpt d.content,
        d.messageType, d.hasAttachment, false, [], false, none⟩] ∧
    (ChatApp.sendMessageSock w sender d).2.head? =
      some (ChatApp.Ev.messageSent sender w.nextMsgId) ∧
    (∀ mid ∈ g.members, ChatApp.isOnline w mid = true →
      ChatApp.Ev.newMessage mid w.nextMsgId ∈ (ChatApp.sendMessageSock w sender d).2) ∧
    (∀ mid ∈ g.members, ChatApp.isOnline w mid = false → mid ≠ sender →
      ∃ ttl body, ChatApp.Ev.pushNotif mid ttl body ∈ (ChatApp.sendMessageSock w sender d).2) := by
  have hvalid : ChatApp.msgValid
      ⟨w.nextMsgId, sender, none, some gid, ChatApp.trimOpt d.content, d.messageType,
        d.hasAttachment, false, [], false, none⟩ = true := by
    simp only [ChatApp.msgValid]
    simp [htrim]
    simpa using htype
  have hsend : ChatApp.sendMessageSock w sender d =
      ChatApp.sendMessageGroup w sender gid d := by
    simp [ChatApp.sendMessageSock, hrid, hgrp, hcontent]
  rw [hsend]
  unfold ChatApp.sendMessageGroup
  rw [hg]
  dsimp only
  rw [if_pos hvalid]
  refine ⟨by simp [ChatApp.updateGroup], rfl, ?_, ?_⟩
  · intro mid hmid hon
    simp only [List.mem_cons, List.mem_append, List.mem_filterMap]
    right
    left
    exact ⟨mid, hmid, by simp [hon]⟩
  · intro mid hmid hoff hne
    refine ⟨g.name, ChatApp.userName w sender ++ ": " ++
      (if ChatApp.trimOpt d.content = "" then "New message"
        else ChatApp.trimOpt d.content), ?_⟩
    simp only [List.mem_cons, List.mem_append, List.mem_map]
    right
    right
    refine ⟨mid, ?_, rfl⟩
    rw [List.mem_filter]
    exact ⟨hmid, by simp [hoff, hne]⟩

/-- The world for the C9 witness: group 0 with admin-only posting enabled,
creator 1, non-admin member 0 sending; member 1 online, member 2 offline. -/
def ChatApp.c9W : ChatApp.World :=
  { ChatApp.emptyW with
      users := [ChatApp.mkUser 0 "A" [] [], ChatApp.mkUser 1 "B" [] [],
        ChatApp.mkUser 2 "C" [] []],
      presence := [⟨0, none⟩, ⟨1, none⟩],
      groups := [⟨0, "G", 1, [1], [0, 1, 2], true, true, none⟩],
      nextGroupId := 1 }

/-- Witness for C9: the non-admin member 0 posts to the admin-only group. -/
theorem group_send_ignores_admin_only_witness :
    (ChatApp.findGroupMemberQ ChatApp.c9W 0 0 =
        some ⟨0, "G", 1, [1], [0, 1, 2], true, true, none⟩ ∧
      (0 : Nat) ∉ ([1] : List Nat) ∧
      ChatApp.trimOpt (some "hi") ≠ "") ∧
    ((ChatApp.sendMessageSock ChatApp.c9W 0 ⟨some 0, some "hi", "text", false, true⟩).1.messages =
      ChatApp.c9W.messages ++ [⟨ChatApp.c9W.nextMsgId, 0, none, some 0,
        ChatApp.trimOpt (some "hi"), "text", false, false, [], false, none⟩] ∧
    (ChatApp.sendMessageSock ChatApp.c9W 0 ⟨some 0, some "hi", "text", false, true⟩).2.head? =
      some (ChatApp.Ev.messageSent 0 ChatApp.c9W.nextMsgId) ∧
    (∀ mid ∈ (⟨0, "G", 1, [1], [0, 1, 2], true, true, none⟩ : ChatApp.Group).members,
      ChatApp.isOnline ChatApp.c9W mid = true →
      ChatApp.Ev.newMessage mid ChatApp.c9W.nextMsgId ∈
        (ChatApp.sendMessageSock ChatApp.c9W 0 ⟨some 0, some "hi", "text", false, true⟩).2) ∧
    (∀ mid ∈ (⟨0, "G", 1, [1], [0, 1, 2], true, true, none⟩ : ChatApp.Group).members,
      ChatApp.isOnline ChatApp.c9W mid = false → mid ≠ 0 →
      ∃ ttl body, ChatApp.Ev.pushNotif mid ttl body ∈
        (ChatApp.sendMessageSock ChatApp.c9W 0 ⟨some 0, some "hi", "text", false, true⟩).2)) :=
  ⟨⟨by decide, by decide, by decide⟩,
    group_send_ignores_admin_only ChatApp.c9W 0 0
      ⟨0, "G", 1, [1], [0, 1, 2], true, true, none⟩
      ⟨some 0, some "hi", "text", false, true⟩
      (by decide) (by decide) (by decide) rfl rfl (by decide) (by decide) (by decide)⟩

/-- C10: `call-initiate` performs no blocking or friendship check: for any
two distinct users where the receiver exists (with arbitrary block lists on
either side) and is online, the call is created in `"initiated"` status, the
caller gets the ack, and the receiver gets `incoming-call`. -/
theorem call_initiate_ignores_blocking
    (w : ChatApp.World) (A B : ChatApp.UserId) (uB : ChatApp.UserRec) (ct : String)
    (hB : ChatApp.findUser w B = some uB)
    (hAB : A ≠ B)
    (honline : ChatApp.isOnline w B = true) :
    ChatApp.callInitiate w A (some B) ct =
      ({ w with calls := w.calls ++ [⟨w.nextCallId, A, B, ct, "initiated"⟩],
                nextCallId := w.nextCallId + 1 },
        [ChatApp.Ev.callInitiated A w.nextCallId,
          ChatApp.Ev.incomingCall B w.nextCallId]) := by
  have hne : (A == B) = false := by simpa using hAB
  simp [ChatApp.callInitiate, hB, hne, honline]

/-- Witness for C10: user 1 has blocked user 0, is online, and still receives
`incoming-call` from user 0. -/
theorem call_initiate_ignores_blocking_witness :
    (ChatApp.findUser
        { ChatApp.emptyW with
            users := [ChatApp.mkUser 0 "A" [] [], ChatApp.mkUser 1 "B" [0] []],
            presence := [⟨0, none⟩, ⟨1, none⟩] } 1
      = some (ChatApp.mkUser 1 "B" [0] []) ∧
      (0 : Nat) ≠ 1 ∧
      ChatApp.isOnline
        { ChatApp.emptyW with
            users := [ChatApp.mkUser 0 "A" [] [], ChatApp.mkUser 1 "B" [0] []],
            presence := [⟨0, none⟩, ⟨1, none⟩] } 1 = true) ∧
    ChatApp.callInitiate
        { ChatApp.emptyW with
            users := [ChatApp.mkUser 0 "A" [] [], ChatApp.mkUser 1 "B" [0] []],
            presence := [⟨0, none⟩, ⟨1, none⟩] } 0 (some 1) "voice" =
      ({ { ChatApp.emptyW with
            users := [ChatApp.mkUser 0 "A" [] [], ChatApp.mkUser 1 "B" [0] []],
            presence := [⟨0, none⟩, ⟨1, none⟩] } with
          calls := [⟨0, 0, 1, "voice", "initiated"⟩],
          nextCallId := 1 },
        [ChatApp.Ev.callInitiated 0 0, ChatApp.Ev.incomingCall 1 0]) :=
  ⟨⟨by decide, by decide, by decide⟩, by
    have := call_initiate_ignores_blocking
      { ChatApp.emptyW with
          users := [ChatApp.mkUser 0 "A" [] [], ChatApp.mkUser 1 "B" [0] []],
          presence := [⟨0, none⟩, ⟨1, none⟩] } 0 1
      (ChatApp.mkUser 1 "B" [0] []) "voice" (by decide) (by decide) (by decide)
    simpa using this⟩
